import Mathlib

/-!
Verification of the Smart-Finance-Tracker repository (`finance_assistant.py`)
against its natural-language specification.

Shallow embedding conventions:
* Python numbers (ints/floats used as money amounts) are modelled as `ℚ`.
* The `FinanceData` object state is the structure `FD` below: the fields of
  `FinancialRecord` (`income`, `savings`, `savings_goal`) together with the
  fields added by `FinanceData` (`expenses`, `original_savings`, `deficit`)
  and the SQLite `expenses` table, modelled as the ordered list `db` of
  `(category, description, amount)` rows (the auto-increment `id` column is
  the row position and carries no information used by any claim).
* `self.expenses` is a Python dict from category to a list of
  `(description, amount)` pairs; Python dicts preserve insertion order, so it
  is modelled as an association list in insertion order, with the dict
  operations (first-key lookup, append-to-entry, new-key-at-end) spelled out.
* The snapshot text file is a list of lines (without their trailing newline:
  every consumer of a line either checks a prefix or strips it, so the
  trailing newline written by the program is irrelevant).
* A raised-and-unhandled Python exception (the `ValueError` of a failed
  `float(...)` call or of a failed 3-way unpack of `split(", ")`) is
  modelled by `Option`: `none` means the operation aborted with an error.
  `read_data_from_file` catches only `FileNotFoundError`, modelled by the
  `Option (List String)` argument being `none`.
* `FinancialRecord.save_data` is `pass` and `FinanceData` never overrides
  it, and `save_data_to_file` only writes the text file; neither changes the
  in-memory state, so state-transition functions omit those calls and the
  file writer is the separate pure function `save_data_to_file`.
-/

/-- State of a `FinanceData` object (including its SQLite expenses table). -/
structure FD where
  income : ℚ
  savings : ℚ
  savings_goal : ℚ
  expenses : List (String × List (String × ℚ))
  original_savings : ℚ
  deficit : ℚ
  db : List (String × String × ℚ)
deriving DecidableEq

/-- The state right after `FinanceData.__init__` runs `super().__init__()`
and initializes its own attributes, before `read_data_from_file` runs:
all numeric fields 0, no expenses, (logically) empty table. -/
def initFD : FD :=
  { income := 0, savings := 0, savings_goal := 0, expenses := [],
    original_savings := 0, deficit := 0, db := [] }

/-- Python `d[category].append((description, amount))` preceded by
`if category not in d: d[category] = []`: append to the (unique) existing
key, or add the new key at the end (dict insertion order). -/
def appendExpense : List (String × List (String × ℚ)) → String → (String × ℚ) →
    List (String × List (String × ℚ))
  | [], c, e => [(c, [e])]
  | (c', es) :: rest, c, e =>
    if c' = c then (c', es ++ [e]) :: rest else (c', es) :: appendExpense rest c e

/-- Sum of the amounts of one category's entry list. -/
def itemsSum : List (String × ℚ) → ℚ
  | [] => 0
  | e :: rest => e.2 + itemsSum rest

/-- Python `sum(amount for items in self.expenses.values() for _, amount in items)`. -/
def sumAmounts : List (String × List (String × ℚ)) → ℚ
  | [] => 0
  | (_, items) :: rest => itemsSum items + sumAmounts rest

/-- Total of all recorded expenses of a state. -/
def totalExpenses (s : FD) : ℚ := sumAmounts s.expenses

/-- `FinancialRecord.add_income` (`finance_assistant.py` lines 17-24):
if `amount > 0`, add it to `income` (the trailing `save_data()` call is the
inherited `pass`). -/
def add_income (s : FD) (amount : ℚ) : FD :=
  if amount > 0 then { s with income := s.income + amount } else s

/-- `FinancialRecord.set_savings_goal` (lines 26-33): if `goal >= 0`, set it. -/
def set_savings_goal (s : FD) (goal : ℚ) : FD :=
  if goal ≥ 0 then { s with savings_goal := goal } else s

/-- `FinanceData.adjust_savings_if_needed` (lines 142-153): when the budget
`income - total_expenses` is negative, record the shortfall in `deficit` and
subtract it from `savings`, clamping `savings` at 0. Otherwise nothing
changes (in particular `deficit` is not reset). -/
def adjust_savings_if_needed (s : FD) : FD :=
  let total := totalExpenses s
  let budget := s.income - total
  if budget < 0 then
    let d := -budget
    let sv := s.savings - d
    { s with deficit := d, savings := if sv < 0 then 0 else sv }
  else s

/-- `FinanceData.save_expense_to_db` (lines 116-127): INSERT one row. -/
def save_expense_to_db (s : FD) (category description : String) (amount : ℚ) : FD :=
  { s with db := s.db ++ [(category, description, amount)] }

/-- `FinanceData.add_expense` (lines 99-114): if `amount > 0`, append the
entry to its category, optionally mirror it into the table, then run
`adjust_savings_if_needed` (the final `save_data_to_file()` writes the text
file and does not change the state). -/
def add_expense (s : FD) (category description : String) (amount : ℚ)
    (save_to_db : Bool) : FD :=
  if amount > 0 then
    let s1 := { s with expenses := appendExpense s.expenses category (description, amount) }
    let s2 := if save_to_db then save_expense_to_db s1 category description amount else s1
    adjust_savings_if_needed s2
  else s

/-! String helpers, modelling the Python string operations the reader uses,
written by structural recursion on character lists so that all of them
evaluate inside the kernel. -/

/-- Characters Python `str.strip()` removes. -/
def isPySpace (c : Char) : Bool :=
  c = ' ' || c = '\t' || c = '\n' || c = '\x0d' || c = '\x0b' || c = '\x0c'

/-- Python `str.strip()` on a character list. -/
def trimChars (l : List Char) : List Char :=
  ((l.dropWhile isPySpace).reverse.dropWhile isPySpace).reverse

/-- Python `str.strip()`. -/
def trimStr (s : String) : String := String.mk (trimChars s.data)

/-- Python `str.startswith(p)`. -/
def strStartsWith (s p : String) : Bool := p.data.isPrefixOf s.data

/-- Fuelled worker for `splitOnStr`; fuel is at least the input length, so
the fuel-exhausted branch is never reached from `splitOnStr`. -/
def splitSepAux (sep : List Char) : Nat → List Char → List Char → List (List Char)
  | _, [], acc => [acc]
  | 0, rest, acc => [acc ++ rest]
  | Nat.succ f, c :: cs, acc =>
    if sep.isPrefixOf (c :: cs) then
      acc :: splitSepAux sep f (List.drop sep.length (c :: cs)) []
    else
      splitSepAux sep f cs (acc ++ [c])

/-- Python `s.split(sep)` for a non-empty separator: left-to-right scan,
non-overlapping matches, `""` splits to `[""]`. -/
def splitOnStr (sep s : String) : List String :=
  (splitSepAux sep.data (s.data.length + 1) s.data []).map String.mk

/-- Value of a digit list read left to right (helper for `pyFloat?`). -/
def digitsToNatAux : List Char → Nat → Nat
  | [], acc => acc
  | c :: cs, acc => digitsToNatAux cs (acc * 10 + (c.toNat - 48))

/-- Python `float(s)` on the plain decimal forms the program reads and
writes: optional surrounding whitespace, optional sign, digits with at most
one decimal point and at least one digit. (Exponent, underscore, `inf` and
`nan` forms accepted by Python never arise from this program's snapshot
writer and are outside the modelled subset.) `none` is `ValueError`. -/
def pyFloatOfChars (l : List Char) : Option ℚ :=
  let t := trimChars l
  let signBody : ℚ × List Char :=
    match t with
    | '-' :: rest => (-1, rest)
    | '+' :: rest => (1, rest)
    | _ => (1, t)
  let sign := signBody.1
  let body := signBody.2
  match splitSepAux ['.'] (body.length + 1) body [] with
  | [a] =>
    if a.all Char.isDigit && !a.isEmpty then
      some (sign * (digitsToNatAux a 0 : ℚ))
    else none
  | [a, b] =>
    if (a ++ b).all Char.isDigit && !(a ++ b).isEmpty then
      some (sign * ((digitsToNatAux a 0 : ℚ) +
        (digitsToNatAux b 0 : ℚ) / (10 : ℚ) ^ b.length))
    else none
  | _ => none

/-- Python `float(s)` (see `pyFloatOfChars`). -/
def pyFloat? (s : String) : Option ℚ := pyFloatOfChars s.data

/-- Number of times `p` divides `n` (fuelled, fuel ≥ n suffices). -/
def countFac (p : Nat) : Nat → Nat → Nat
  | 0, _ => 0
  | Nat.succ f, n => if n % p = 0 ∧ n ≠ 0 then 1 + countFac p f (n / p) else 0

/-- Left-pad a digit string with zeros to width `k`. -/
def padLeftZeros (s : List Char) (k : Nat) : List Char :=
  List.replicate (k - s.length) '0' ++ s

/-- Decimal rendering of a rational, modelling Python's `str` on the int and
float money values the program prints into the snapshot (`f"{self.income}"`
etc.): exact decimal digits, a fractional part only when non-zero. A
rational with no finite decimal expansion (which no Python float is) falls
back to a `num/den` form. -/
def ratStr (q : ℚ) : String :=
  let sgn : String := if q < 0 then "-" else ""
  let n := q.num.natAbs
  let d := q.den
  let k := max (countFac 2 d d) (countFac 5 d d)
  if 10 ^ k % d = 0 then
    let m := n * (10 ^ k / d)
    let ip := m / 10 ^ k
    let fp := m % 10 ^ k
    if k = 0 then sgn ++ toString ip
    else sgn ++ toString ip ++ "." ++ String.mk (padLeftZeros (toString fp).data k)
  else sgn ++ toString n ++ "/" ++ toString d

/-! The snapshot reader and writer. -/

/-- Parse the text after the first colon of a `Income:`/`Savings:`/
`SavingsGoal:` line: Python `float(line.split(":")[1].strip())`.
`none` is the propagated `ValueError` (or `IndexError`). -/
def headerVal (line : String) : Option ℚ :=
  match (splitOnStr ":" line).get? 1 with
  | some v => pyFloat? (trimStr v)
  | none => none

/-- Parse one expense line: Python
`category, description, amount = line.strip().split(", ")` followed by
`float(amount)`; `none` is the propagated `ValueError`. -/
def parseExpenseLine (line : String) : Option (String × String × ℚ) :=
  match splitOnStr ", " (trimStr line) with
  | [c, d, a] =>
    match pyFloat? a with
    | some q => some (c, d, q)
    | none => none
  | _ => none

/-- The line loop of `FinanceData.read_data_from_file` (lines 76-93): the
`elif` chain checks the four literal line prefixes in order and otherwise,
when inside the `Expenses:` section and the stripped line is non-empty,
parses the line as an expense, INSERTing it into the table and appending it
to the in-memory dict. Any parse failure propagates (`none`). -/
def readLines (s : FD) (inSec : Bool) : List String → Option (FD × Bool)
  | [] => some (s, inSec)
  | line :: rest =>
    if strStartsWith line "Income:" then
      match headerVal line with
      | some v => readLines { s with income := v } inSec rest
      | none => none
    else if strStartsWith line "Savings:" then
      match headerVal line with
      | some v => readLines { s with savings := v } inSec rest
      | none => none
    else if strStartsWith line "SavingsGoal:" then
      match headerVal line with
      | some v => readLines { s with savings_goal := v } inSec rest
      | none => none
    else if strStartsWith line "Expenses:" then
      readLines s true rest
    else if inSec ∧ trimStr line ≠ "" then
      match parseExpenseLine line with
      | some (c, d, a) =>
        readLines { s with db := s.db ++ [(c, d, a)],
                           expenses := appendExpense s.expenses c (d, a) } inSec rest
      | none => none
    else readLines s inSec rest

/-- `FinanceData.read_data_from_file` (lines 65-97). `file = none` models
`FileNotFoundError` (caught: the table was already cleared by the DELETE,
the attributes stay). On success `original_savings` is set to the loaded
savings. The in-memory `expenses` dict is never cleared. A parse error
propagates out (`none`); no claim inspects the partially-mutated object a
propagated exception leaves behind, so the error carries no state. -/
def read_data_from_file (s : FD) (file : Option (List String)) : Option FD :=
  let s0 := { s with db := [] }
  match file with
  | none => some s0
  | some lines =>
    match readLines s0 false lines with
    | some (s', _) => some { s' with original_savings := s'.savings }
    | none => none

/-- The one expense line `f"{category}, {desc}, {amount}"` of the writer. -/
def expenseLineStr (category description : String) (amount : ℚ) : String :=
  category ++ ", " ++ description ++ ", " ++ ratStr amount

/-- Writer's line for a flattened `(category, description, amount)` row. -/
def lineStrOf (r : String × String × ℚ) : String :=
  expenseLineStr r.1 r.2.1 r.2.2

/-- Rows of the expenses dict in iteration order (the order both the writer
and the table-population loops traverse). -/
def flattenExpenses : List (String × List (String × ℚ)) → List (String × String × ℚ)
  | [] => []
  | (c, items) :: rest => items.map (fun e => (c, e.1, e.2)) ++ flattenExpenses rest

/-- `FinanceData.save_data_to_file` (lines 129-140): the three header lines,
the `Expenses:` marker, then one line per expense entry in dict order,
overwriting the whole file (so the result is exactly this list of lines). -/
def save_data_to_file (s : FD) : List String :=
  ["Income: " ++ ratStr s.income,
   "Savings: " ++ ratStr s.savings,
   "SavingsGoal: " ++ ratStr s.savings_goal,
   "Expenses:"]
  ++ (flattenExpenses s.expenses).map lineStrOf

/-! Specification-side helpers used to state properties of the reader. -/

/-- Python `self.expenses[c]` read access modulo presence: the entry list of
category `c`, or `[]` when the key is absent. -/
def getCat : List (String × List (String × ℚ)) → String → List (String × ℚ)
  | [], _ => []
  | (c', es) :: rest, c => if c' = c then es else getCat rest c

/-- Fold step inserting one flattened row into the expenses dict. -/
def expStep (E : List (String × List (String × ℚ))) (r : String × String × ℚ) :
    List (String × List (String × ℚ)) :=
  appendExpense E r.1 (r.2.1, r.2.2)

/-- The `(description, amount)` pairs among `rows` whose category is `c`,
in order. -/
def rowsFor (c : String) : List (String × String × ℚ) → List (String × ℚ)
  | [] => []
  | r :: rest => if r.1 = c then (r.2.1, r.2.2) :: rowsFor c rest else rowsFor c rest

/-- The expense rows a snapshot's lines denote, walking the lines with the
same prefix priority and section flag as `readLines`. (On a malformed
expense line the reader aborts; this extraction stops there, which is all
the success-conditioned theorems below ever use.) -/
def fileRowsAux (inSec : Bool) : List String → List (String × String × ℚ)
  | [] => []
  | line :: rest =>
    if strStartsWith line "Income:" then fileRowsAux inSec rest
    else if strStartsWith line "Savings:" then fileRowsAux inSec rest
    else if strStartsWith line "SavingsGoal:" then fileRowsAux inSec rest
    else if strStartsWith line "Expenses:" then fileRowsAux true rest
    else if inSec ∧ trimStr line ≠ "" then
      match parseExpenseLine line with
      | some r => r :: fileRowsAux inSec rest
      | none => []
    else fileRowsAux inSec rest

/-- True when some non-blank line in expense-parsing position fails to parse
(wrong field count for `category, description, amount`, or a non-numeric
amount), walking lines exactly as `readLines` does. -/
def hasMalformed (inSec : Bool) : List String → Bool
  | [] => false
  | line :: rest =>
    if strStartsWith line "Income:" then hasMalformed inSec rest
    else if strStartsWith line "Savings:" then hasMalformed inSec rest
    else if strStartsWith line "SavingsGoal:" then hasMalformed inSec rest
    else if strStartsWith line "Expenses:" then hasMalformed true rest
    else if inSec ∧ trimStr line ≠ "" then
      match parseExpenseLine line with
      | some _ => hasMalformed inSec rest
      | none => true
    else hasMalformed inSec rest

/-- Cleanliness of one expense row for the writer-then-reader round trip:
its serialized line is not captured by one of the header prefixes, is not
blank, and parses back to the row itself. -/
def lineOkRow (r : String × String × ℚ) : Prop :=
  strStartsWith (lineStrOf r) "Income:" = false ∧
  strStartsWith (lineStrOf r) "Savings:" = false ∧
  strStartsWith (lineStrOf r) "SavingsGoal:" = false ∧
  strStartsWith (lineStrOf r) "Expenses:" = false ∧
  trimStr (lineStrOf r) ≠ "" ∧
  parseExpenseLine (lineStrOf r) = some r

instance (r : String × String × ℚ) : Decidable (lineOkRow r) := by
  unfold lineOkRow; infer_instance

/-! Small lemmas about the dict operations. -/

theorem getCat_appendExpense (E : List (String × List (String × ℚ)))
    (c c' : String) (e : String × ℚ) :
    getCat (appendExpense E c e) c' =
      if c = c' then getCat E c' ++ [e] else getCat E c' := by
  induction E with
  | nil => simp [appendExpense, getCat]
  | cons hd tl ih =>
    obtain ⟨c0, es⟩ := hd
    by_cases h0 : c0 = c
    · subst h0
      by_cases h1 : c0 = c'
      · subst h1; simp [appendExpense, getCat]
      · simp [appendExpense, getCat, h1]
    · by_cases h1 : c0 = c'
      · subst h1
        have hcc : ¬ c = c0 := fun h => h0 h.symm
        simp [appendExpense, getCat, h0, hcc]
      · simp [appendExpense, getCat, h0, h1, ih]

theorem getCat_foldl (rows : List (String × String × ℚ))
    (E : List (String × List (String × ℚ))) (c : String) :
    getCat (rows.foldl expStep E) c = getCat E c ++ rowsFor c rows := by
  induction rows generalizing E with
  | nil => simp [rowsFor]
  | cons r rs ih =>
    rw [List.foldl_cons, ih]
    show getCat (appendExpense E r.1 (r.2.1, r.2.2)) c ++ rowsFor c rs = _
    rw [getCat_appendExpense]
    by_cases h : r.1 = c
    · simp [rowsFor, h, List.append_assoc]
    · simp [rowsFor, h]

theorem rowsFor_append (c : String) (xs ys : List (String × String × ℚ)) :
    rowsFor c (xs ++ ys) = rowsFor c xs ++ rowsFor c ys := by
  induction xs with
  | nil => simp [rowsFor]
  | cons x xs ih =>
    by_cases h : x.1 = c <;> simp [rowsFor, h, ih]

theorem rowsFor_mapRow (c c0 : String) (es : List (String × ℚ)) :
    rowsFor c (es.map (fun e => (c0, e))) = if c0 = c then es else [] := by
  induction es with
  | nil => simp [rowsFor]
  | cons e es ih =>
    by_cases h : c0 = c
    · subst h
      simp only [if_pos rfl] at ih
      simp [rowsFor, ih]
    · simp only [if_neg h] at ih
      simp [rowsFor, h, ih]

theorem rowsFor_flatten_of_not_mem (c : String)
    (E : List (String × List (String × ℚ))) (h : c ∉ E.map Prod.fst) :
    rowsFor c (flattenExpenses E) = [] := by
  induction E with
  | nil => simp [flattenExpenses, rowsFor]
  | cons hd tl ih =>
    obtain ⟨c0, es⟩ := hd
    simp only [List.map_cons, List.mem_cons] at h
    push_neg at h
    have h0 : c0 ≠ c := fun hh => h.1 hh.symm
    simp [flattenExpenses, rowsFor_append, rowsFor_mapRow, h0, ih h.2]

theorem rowsFor_flatten_nodup (c : String)
    (E : List (String × List (String × ℚ))) (h : (E.map Prod.fst).Nodup) :
    rowsFor c (flattenExpenses E) = getCat E c := by
  induction E with
  | nil => simp [flattenExpenses, rowsFor, getCat]
  | cons hd tl ih =>
    obtain ⟨c0, es⟩ := hd
    simp only [List.map_cons, List.nodup_cons] at h
    rw [flattenExpenses, rowsFor_append, rowsFor_mapRow]
    by_cases h0 : c0 = c
    · subst h0
      rw [rowsFor_flatten_of_not_mem c0 tl h.1]
      simp [getCat]
    · simp [getCat, h0, ih h.2]

theorem mem_flatten_appendExpense (r : String × String × ℚ)
    (E : List (String × List (String × ℚ))) (c : String) (e : String × ℚ) :
    r ∈ flattenExpenses (appendExpense E c e) ↔
      r ∈ flattenExpenses E ∨ r = (c, e.1, e.2) := by
  induction E with
  | nil => simp [appendExpense, flattenExpenses]
  | cons hd tl ih =>
    obtain ⟨c0, es⟩ := hd
    by_cases h0 : c0 = c
    · subst h0
      simp only [appendExpense, if_pos rfl, flattenExpenses, List.map_append,
        List.mem_append, List.map_cons, List.map_nil, List.mem_singleton]
      tauto
    · simp only [appendExpense, if_neg h0, flattenExpenses, List.mem_append, ih]
      tauto

theorem mem_flatten_foldl (r : String × String × ℚ)
    (rows : List (String × String × ℚ)) (E : List (String × List (String × ℚ))) :
    r ∈ flattenExpenses (rows.foldl expStep E) ↔
      r ∈ flattenExpenses E ∨ r ∈ rows := by
  induction rows generalizing E with
  | nil => simp
  | cons r0 rs ih =>
    rw [List.foldl_cons, ih]
    show r ∈ flattenExpenses (appendExpense E r0.1 (r0.2.1, r0.2.2)) ∨ _ ↔ _
    rw [mem_flatten_appendExpense]
    simp only [List.mem_cons]
    tauto

/-! Prefix facts about the writer's four header lines (all definitional:
the comparisons short-circuit before reaching the variable tail). -/

theorem sw_inc (x : String) : strStartsWith ("Income: " ++ x) "Income:" = true := rfl

theorem sw_sav_not_inc (x : String) :
    strStartsWith ("Savings: " ++ x) "Income:" = false := rfl

theorem sw_sav (x : String) : strStartsWith ("Savings: " ++ x) "Savings:" = true := rfl

theorem sw_goal_not_inc (x : String) :
    strStartsWith ("SavingsGoal: " ++ x) "Income:" = false := rfl

theorem sw_goal_not_sav (x : String) :
    strStartsWith ("SavingsGoal: " ++ x) "Savings:" = false := rfl

theorem sw_goal (x : String) :
    strStartsWith ("SavingsGoal: " ++ x) "SavingsGoal:" = true := rfl

/-! Projection facts about `adjust_savings_if_needed`. -/

theorem adjust_expenses (s : FD) :
    (adjust_savings_if_needed s).expenses = s.expenses := by
  simp only [adjust_savings_if_needed]
  split <;> rfl

theorem adjust_income (s : FD) :
    (adjust_savings_if_needed s).income = s.income := by
  simp only [adjust_savings_if_needed]
  split <;> rfl

theorem total_adjust (s : FD) :
    totalExpenses (adjust_savings_if_needed s) = totalExpenses s := by
  unfold totalExpenses
  rw [adjust_expenses]

/-- Two successive shortfall subtractions of the same `d > 0`, each clamped
at 0, land at `max (S - 2 * d) 0`. -/
theorem double_clamp (S d : ℚ) (hd : 0 < d) :
    (if (if S - d < 0 then 0 else S - d) - d < 0 then (0 : ℚ)
     else (if S - d < 0 then 0 else S - d) - d) = max (S - 2 * d) 0 := by
  rcases lt_or_le (S - d) 0 with h1 | h1
  · rw [if_pos h1, if_pos (by linarith)]
    exact (max_eq_right (by linarith)).symm
  · rw [if_neg (not_lt.mpr h1)]
    rcases lt_or_le (S - d - d) 0 with h2 | h2
    · rw [if_pos h2]
      exact (max_eq_right (by linarith)).symm
    · rw [if_neg (not_lt.mpr h2)]
      rw [max_eq_left (by linarith)]
      ring

/-- What a successful run of the reader's line loop does to the table, the
expenses dict, and the fields it never touches: the table gains exactly the
file's parsed rows and the dict gains them by per-category append. -/
theorem readLines_ok :
    ∀ (lines : List String) (s : FD) (inSec : Bool) (s' : FD) (b : Bool),
      readLines s inSec lines = some (s', b) →
      s'.db = s.db ++ fileRowsAux inSec lines ∧
      s'.expenses = (fileRowsAux inSec lines).foldl expStep s.expenses ∧
      s'.deficit = s.deficit ∧
      s'.original_savings = s.original_savings := by
  intro lines
  induction lines with
  | nil =>
    intro s inSec s' b h
    simp only [readLines, Option.some.injEq, Prod.mk.injEq] at h
    obtain ⟨h1, _⟩ := h
    subst h1
    simp [fileRowsAux]
  | cons line rest ih =>
    intro s inSec s' b h
    rw [readLines] at h
    rw [fileRowsAux]
    by_cases h1 : strStartsWith line "Income:" = true
    · rw [if_pos h1] at h
      rw [if_pos h1]
      cases hv : headerVal line with
      | none => rw [hv] at h; exact Option.noConfusion h
      | some v =>
        rw [hv] at h
        exact ih { s with income := v } inSec s' b h
    · rw [if_neg h1] at h
      rw [if_neg h1]
      by_cases h2 : strStartsWith line "Savings:" = true
      · rw [if_pos h2] at h
        rw [if_pos h2]
        cases hv : headerVal line with
        | none => rw [hv] at h; exact Option.noConfusion h
        | some v =>
          rw [hv] at h
          exact ih { s with savings := v } inSec s' b h
      · rw [if_neg h2] at h
        rw [if_neg h2]
        by_cases h3 : strStartsWith line "SavingsGoal:" = true
        · rw [if_pos h3] at h
          rw [if_pos h3]
          cases hv : headerVal line with
          | none => rw [hv] at h; exact Option.noConfusion h
          | some v =>
            rw [hv] at h
            exact ih { s with savings_goal := v } inSec s' b h
        · rw [if_neg h3] at h
          rw [if_neg h3]
          by_cases h4 : strStartsWith line "Expenses:" = true
          · rw [if_pos h4] at h
            rw [if_pos h4]
            exact ih s true s' b h
          · rw [if_neg h4] at h
            rw [if_neg h4]
            by_cases h5 : ↑inSec ∧ trimStr line ≠ ""
            · rw [if_pos h5] at h
              rw [if_pos h5]
              cases hp : parseExpenseLine line with
              | none => rw [hp] at h; exact Option.noConfusion h
              | some r =>
                obtain ⟨c, d, a⟩ := r
                rw [hp] at h
                obtain ⟨hdb, hexp, hdef, horig⟩ :=
                  ih { s with db := s.db ++ [(c, d, a)],
                              expenses := appendExpense s.expenses c (d, a) } inSec s' b h
                refine ⟨?_, ?_, hdef, horig⟩
                · rw [hdb]
                  simp [List.append_assoc]
                · rw [hexp]
                  rfl
            · rw [if_neg h5] at h
              rw [if_neg h5]
              exact ih s inSec s' b h

/-- If some line in expense-parsing position is malformed, the line loop
aborts with the propagated parse error. -/
theorem readLines_malformed :
    ∀ (lines : List String) (s : FD) (inSec : Bool),
      hasMalformed inSec lines = true →
      readLines s inSec lines = none := by
  intro lines
  induction lines with
  | nil =>
    intro s inSec hm
    exact absurd hm (by simp [hasMalformed])
  | cons line rest ih =>
    intro s inSec hm
    rw [hasMalformed] at hm
    rw [readLines]
    by_cases h1 : strStartsWith line "Income:" = true
    · rw [if_pos h1] at hm
      rw [if_pos h1]
      cases hv : headerVal line with
      | none => rfl
      | some v => exact ih _ inSec hm
    · rw [if_neg h1] at hm
      rw [if_neg h1]
      by_cases h2 : strStartsWith line "Savings:" = true
      · rw [if_pos h2] at hm
        rw [if_pos h2]
        cases hv : headerVal line with
        | none => rfl
        | some v => exact ih _ inSec hm
      · rw [if_neg h2] at hm
        rw [if_neg h2]
        by_cases h3 : strStartsWith line "SavingsGoal:" = true
        · rw [if_pos h3] at hm
          rw [if_pos h3]
          cases hv : headerVal line with
          | none => rfl
          | some v => exact ih _ inSec hm
        · rw [if_neg h3] at hm
          rw [if_neg h3]
          by_cases h4 : strStartsWith line "Expenses:" = true
          · rw [if_pos h4] at hm
            rw [if_pos h4]
            exact ih _ true hm
          · rw [if_neg h4] at hm
            rw [if_neg h4]
            by_cases h5 : ↑inSec ∧ trimStr line ≠ ""
            · rw [if_pos h5] at hm
              rw [if_pos h5]
              cases hp : parseExpenseLine line with
              | none => rfl
              | some r =>
                rw [hp] at hm
                obtain ⟨c, d, a⟩ := r
                exact ih _ inSec hm
            · rw [if_neg h5] at hm
              rw [if_neg h5]
              exact ih _ inSec hm

/-- Feeding the writer's expense lines for `rows` to the reader's loop in
expense mode appends every row to the table and to its category. -/
theorem readLines_writerRows :
    ∀ (rows : List (String × String × ℚ)) (s : FD),
      (∀ r ∈ rows, lineOkRow r) →
      readLines s true (rows.map lineStrOf) =
        some ({ s with db := s.db ++ rows,
                       expenses := rows.foldl expStep s.expenses }, true) := by
  intro rows
  induction rows with
  | nil =>
    intro s _
    simp [readLines]
  | cons r rs ih =>
    intro s hok
    obtain ⟨hn1, hn2, hn3, hn4, hnb, hp⟩ := hok r (List.mem_cons_self _ _)
    rw [List.map_cons, readLines]
    rw [if_neg (by simp [hn1]), if_neg (by simp [hn2]),
        if_neg (by simp [hn3]), if_neg (by simp [hn4])]
    rw [if_pos ⟨rfl, hnb⟩]
    rw [hp]
    show readLines
        { s with db := s.db ++ [(r.1, r.2.1, r.2.2)],
                 expenses := appendExpense s.expenses r.1 (r.2.1, r.2.2) }
        true (rs.map lineStrOf) = _
    rw [ih _ (fun x hx => hok x (List.mem_cons_of_mem _ hx))]
    simp [List.append_assoc, expStep]

/-- Characterization of `adjust_savings_if_needed` when expenses exceed
income. -/
theorem adjust_spec (s : FD) (h : s.income < totalExpenses s) :
    adjust_savings_if_needed s =
      { s with deficit := totalExpenses s - s.income,
               savings := if s.savings - (totalExpenses s - s.income) < 0 then 0
                          else s.savings - (totalExpenses s - s.income) } := by
  have hb : s.income - totalExpenses s < 0 := sub_neg.mpr h
  simp only [adjust_savings_if_needed]
  rw [if_pos hb, neg_sub]

/-- `adjust_savings_if_needed` is the identity when expenses do not exceed
income (in particular `deficit` keeps its old value). -/
theorem adjust_noop (s : FD) (h : ¬ s.income < totalExpenses s) :
    adjust_savings_if_needed s = s := by
  have hb : ¬ s.income - totalExpenses s < 0 := by rw [sub_neg]; exact h
  simp only [adjust_savings_if_needed]
  rw [if_neg hb]

/-- Running the adjustment twice while in shortfall subtracts the same
shortfall twice, clamped at 0. -/
theorem adjust_twice (s : FD) (h : s.income < totalExpenses s) :
    (adjust_savings_if_needed (adjust_savings_if_needed s)).savings =
      max (s.savings - 2 * (totalExpenses s - s.income)) 0 ∧
    (adjust_savings_if_needed (adjust_savings_if_needed s)).deficit =
      totalExpenses s - s.income := by
  have hd : 0 < totalExpenses s - s.income := sub_pos.mpr h
  rw [adjust_spec s h]
  have h2 : ({ s with
      deficit := totalExpenses s - s.income,
      savings := if s.savings - (totalExpenses s - s.income) < 0 then 0
                 else s.savings - (totalExpenses s - s.income) } : FD).income <
      totalExpenses { s with
        deficit := totalExpenses s - s.income,
        savings := if s.savings - (totalExpenses s - s.income) < 0 then 0
                   else s.savings - (totalExpenses s - s.income) } := h
  rw [adjust_spec _ h2]
  constructor
  · exact double_clamp s.savings (totalExpenses s - s.income) hd
  · rfl

/-- `add_expense` with a positive amount, written as one append followed by
the adjustment. -/
theorem add_expense_pos (s : FD) (c d : String) (a : ℚ) (b : Bool) (ha : 0 < a) :
    add_expense s c d a b =
      adjust_savings_if_needed
        { s with expenses := appendExpense s.expenses c (d, a),
                 db := if b then s.db ++ [(c, d, a)] else s.db } := by
  simp only [add_expense, save_expense_to_db]
  rw [if_pos ha]
  cases b
  · rfl
  · rfl

/-- The adjustment never drives savings negative. -/
theorem adjust_savings_nonneg (s : FD) (h : 0 ≤ s.savings) :
    0 ≤ (adjust_savings_if_needed s).savings := by
  by_cases hc : s.income < totalExpenses s
  · rw [adjust_spec s hc]
    show (0 : ℚ) ≤ if s.savings - (totalExpenses s - s.income) < 0 then 0
      else s.savings - (totalExpenses s - s.income)
    split
    · exact le_refl 0
    · exact not_lt.mp (by assumption)
  · rw [adjust_noop s hc]
    exact h

/-- When an expense is added on an empty ledger, the new total is just the
added amount. -/
theorem total_single (s : FD) (c d : String) (a : ℚ)
    (db' : List (String × String × ℚ)) (h : s.expenses = []) :
    totalExpenses
      { s with expenses := appendExpense s.expenses c (d, a), db := db' } = a := by
  simp [totalExpenses, h, appendExpense, sumAmounts, itemsSum]

set_option maxRecDepth 100000

/-! Concrete states used by counterexamples and witnesses. -/

/-- An empty-expenses ledger with income 500 and savings 1000. -/
def exS : FD := { initFD with income := 500, savings := 1000 }

/-- A ledger whose snapshot round trip is examined: two of everything after
reloading. -/
def rtS : FD :=
  { initFD with income := 500, savings := 2, savings_goal := 3,
                expenses := [("A", [("x", 1)])] }

/-- A ledger with one in-memory expense and one stale table row. -/
def c4S : FD :=
  { initFD with expenses := [("A", [("x", 1)])], db := [("Old", "o", 5)] }

/-- The state `c4S` reaches after loading `["Expenses:", "B, y, 2"]`. -/
def c4Res : FD :=
  { income := 0, savings := 0, savings_goal := 0,
    expenses := [("A", [("x", 1)]), ("B", [("y", 2)])],
    original_savings := 0, deficit := 0, db := [("B", "y", 2)] }

/-- The fresh-construction state after loading `["Expenses:", "A, x, 1"]`. -/
def c4W : FD :=
  { income := 0, savings := 0, savings_goal := 0,
    expenses := [("A", [("x", 1)])],
    original_savings := 0, deficit := 0, db := [("A", "x", 1)] }

/-- A ledger with one in-memory expense category `G`, for the load-append
witness. -/
def c10S : FD := { initFD with expenses := [("G", [("m", 4)])] }

/-- The state `c10S` reaches after loading `["Expenses:", "G, n, 2"]`. -/
def c10Res : FD :=
  { income := 0, savings := 0, savings_goal := 0,
    expenses := [("G", [("m", 4), ("n", 2)])],
    original_savings := 0, deficit := 0, db := [("G", "n", 2)] }

/-- A ledger in shortfall: income 500, savings 700, one expense of 1000. -/
def c9S : FD :=
  { initFD with income := 500, savings := 700,
                expenses := [("R", [("r", 1000)])] }

/-! Claim theorems. -/

/-- C6 counterexample: the claim says `setSavingsGoal(goal)` is a silent
no-op for every `goal ≤ 0`, but the code's guard is `goal >= 0`, so
`goal = 0` is applied: on a ledger whose goal is 5, `setSavingsGoal(0)`
changes the state. -/
theorem c6_counterexample :
    set_savings_goal { initFD with savings_goal := 5 } 0 ≠
      { initFD with savings_goal := 5 } :=
  of_decide_eq_true (by with_unfolding_all rfl)

/-- C6 (amended): non-positive amounts to `addIncome`/`addExpense` are
silent no-ops, and a strictly negative goal to `setSavingsGoal` is a silent
no-op (goal = 0 is accepted and applied). -/
theorem c6_amended (s : FD) (a g : ℚ) (c d : String) (b : Bool)
    (ha : a ≤ 0) (hg : g < 0) :
    add_income s a = s ∧ add_expense s c d a b = s ∧ set_savings_goal s g = s := by
  refine ⟨?_, ?_, ?_⟩
  · unfold add_income
    rw [if_neg (not_lt.mpr ha)]
  · unfold add_expense
    rw [if_neg (not_lt.mpr ha)]
  · unfold set_savings_goal
    rw [if_neg (not_le.mpr hg)]

/-- C6 witness: the amended statement at a concrete ledger and arguments. -/
theorem c6_witness :
    add_income initFD (-1) = initFD ∧
    add_expense initFD "A" "x" (-1) true = initFD ∧
    set_savings_goal initFD (-2) = initFD :=
  c6_amended initFD (-1) (-2) "A" "x" true (by norm_num) (by norm_num)

/-- C7: `setSavingsGoal(goal)` sets the goal to exactly `goal` when
`goal ≥ 0` and leaves the state unchanged when `goal < 0`. -/
theorem c7_set_goal (s : FD) (g : ℚ) :
    (0 ≤ g → (set_savings_goal s g).savings_goal = g) ∧
    (g < 0 → set_savings_goal s g = s) := by
  constructor
  · intro hg
    unfold set_savings_goal
    rw [if_pos hg]
  · intro hg
    unfold set_savings_goal
    rw [if_neg (not_le.mpr hg)]

/-- C7 witness: goal 6000 is stored exactly; goal −1 is a no-op. -/
theorem c7_witness :
    (set_savings_goal initFD 6000).savings_goal = 6000 ∧
    set_savings_goal initFD (-1) = initFD :=
  ⟨(c7_set_goal initFD 6000).1 (by norm_num),
   (c7_set_goal initFD (-1)).2 (by norm_num)⟩

/-- C5 counterexample: the claim includes `loadFromSnapshot` among the
mutations after which savings is never negative, but the reader stores the
file's `Savings:` value without clamping: loading `Savings: -5` leaves
savings = −5 < 0. -/
theorem c5_counterexample :
    (read_data_from_file initFD (some ["Savings: -5"])).map FD.savings =
      some (-5) ∧ ((-5 : ℚ) < 0) :=
  of_decide_eq_true (by with_unfolding_all rfl)

/-- C5 (amended): starting from non-negative savings, `addIncome`,
`setSavingsGoal`, `addExpense` and `adjustSavingsIfNeeded` keep savings
non-negative (the adjustment clamps at 0); `loadFromSnapshot` instead takes
savings verbatim from the file, so it preserves non-negativity only when
the snapshot's `Savings:` value is non-negative. -/
theorem c5_amended (s : FD) (h : 0 ≤ s.savings) (amt g : ℚ) (c d : String)
    (b : Bool) :
    0 ≤ (add_income s amt).savings ∧
    0 ≤ (set_savings_goal s g).savings ∧
    0 ≤ (add_expense s c d amt b).savings ∧
    0 ≤ (adjust_savings_if_needed s).savings := by
  refine ⟨?_, ?_, ?_, adjust_savings_nonneg s h⟩
  · unfold add_income
    split
    · exact h
    · exact h
  · unfold set_savings_goal
    split
    · exact h
    · exact h
  · by_cases hp : amt > 0
    · rw [add_expense_pos s c d amt b hp]
      exact adjust_savings_nonneg _ h
    · unfold add_expense
      rw [if_neg hp]
      exact h

/-- C5 witness: the amended statement at a concrete ledger and arguments. -/
theorem c5_witness :
    0 ≤ (add_income initFD 7).savings ∧
    0 ≤ (set_savings_goal initFD 8).savings ∧
    0 ≤ (add_expense initFD "A" "x" 7 true).savings ∧
    0 ≤ (adjust_savings_if_needed initFD).savings :=
  c5_amended initFD (le_refl 0) 7 8 "A" "x" true

/-- C2 counterexample: the claimed invariant `deficit =
max(0, totalExpenses − income)` fails on a reachable state: add an expense
of 5 on a fresh ledger (deficit becomes 5), raise income to 10, then call
`adjustSavingsIfNeeded`; the deficit stays 5 while
`max(0, totalExpenses − income) = 0`, because the no-shortfall branch never
resets `deficit`. -/
theorem c2_counterexample :
    (adjust_savings_if_needed (add_income (add_expense initFD "A" "x" 5 true) 10)).deficit ≠
      max 0
        (totalExpenses
            (adjust_savings_if_needed (add_income (add_expense initFD "A" "x" 5 true) 10)) -
          (adjust_savings_if_needed (add_income (add_expense initFD "A" "x" 5 true) 10)).income) :=
  of_decide_eq_true (by with_unfolding_all rfl)

/-- C2 (amended): after `adjustSavingsIfNeeded`, and after an `addExpense`
that actually adds (amount > 0), the deficit equals the shortfall whenever
total expenses exceed income; when they do not, the mutation leaves deficit
and savings at their previous values (the deficit is not reset to 0). -/
theorem c2_amended (s : FD) (c d : String) (a : ℚ) (b : Bool) (ha : 0 < a) :
    ((s.income < totalExpenses s →
        (adjust_savings_if_needed s).deficit = totalExpenses s - s.income) ∧
     (¬ s.income < totalExpenses s → adjust_savings_if_needed s = s)) ∧
    ((add_expense s c d a b).income < totalExpenses (add_expense s c d a b) →
        (add_expense s c d a b).deficit =
          totalExpenses (add_expense s c d a b) - (add_expense s c d a b).income) ∧
    (¬ (add_expense s c d a b).income < totalExpenses (add_expense s c d a b) →
        (add_expense s c d a b).deficit = s.deficit ∧
        (add_expense s c d a b).savings = s.savings) := by
  refine ⟨⟨?_, ?_⟩, ?_, ?_⟩
  · intro h
    rw [adjust_spec s h]
  · intro h
    exact adjust_noop s h
  · rw [add_expense_pos s c d a b ha]
    rw [adjust_income, total_adjust]
    intro h
    rw [adjust_spec _ h]
  · rw [add_expense_pos s c d a b ha]
    rw [adjust_income, total_adjust]
    intro h
    rw [adjust_noop _ h]
    exact ⟨rfl, rfl⟩

/-- C2 witness: the amended statement at a concrete ledger and expense. -/
theorem c2_witness :
    ((initFD.income < totalExpenses initFD →
        (adjust_savings_if_needed initFD).deficit =
          totalExpenses initFD - initFD.income) ∧
     (¬ initFD.income < totalExpenses initFD →
        adjust_savings_if_needed initFD = initFD)) ∧
    ((add_expense initFD "A" "x" 5 true).income <
        totalExpenses (add_expense initFD "A" "x" 5 true) →
      (add_expense initFD "A" "x" 5 true).deficit =
        totalExpenses (add_expense initFD "A" "x" 5 true) -
          (add_expense initFD "A" "x" 5 true).income) ∧
    (¬ (add_expense initFD "A" "x" 5 true).income <
        totalExpenses (add_expense initFD "A" "x" 5 true) →
      (add_expense initFD "A" "x" 5 true).deficit = initFD.deficit ∧
      (add_expense initFD "A" "x" 5 true).savings = initFD.savings) :=
  c2_amended initFD "A" "x" 5 true (by norm_num)

/-- C1 counterexample: on an empty-expenses ledger with income 500 and
savings S = 1000, `addExpense("Rent","Monthly Rent",1000)` followed by
`adjustSavingsIfNeeded` leaves savings 0, not `max(S−500, 0) = 500`:
`addExpense` already ran the adjustment once, so the explicit call
subtracts the 500 shortfall a second time. -/
theorem c1_counterexample :
    (adjust_savings_if_needed
        (add_expense exS "Rent" "Monthly Rent" 1000 true)).savings ≠
      max (exS.savings - 500) 0 :=
  of_decide_eq_true (by with_unfolding_all rfl)

/-- C1 (amended): on an empty-expenses ledger with income 500 and savings
S, `addExpense("Rent","Monthly Rent",1000)` followed by
`adjustSavingsIfNeeded` leaves deficit 500 and savings `max(S−1000, 0)`:
each of the two adjustment runs (one inside `addExpense`, one explicit)
subtracts the full 500 shortfall, clamped at 0. -/
theorem c1_amended (S : ℚ) (s : FD) (h1 : s.expenses = []) (h2 : s.income = 500)
    (h3 : s.savings = S) :
    (adjust_savings_if_needed
        (add_expense s "Rent" "Monthly Rent" 1000 true)).deficit = 500 ∧
    (adjust_savings_if_needed
        (add_expense s "Rent" "Monthly Rent" 1000 true)).savings =
      max (S - 1000) 0 := by
  have hrec : add_expense s "Rent" "Monthly Rent" 1000 true =
      adjust_savings_if_needed
        { s with expenses := [("Rent", [("Monthly Rent", 1000)])],
                 db := s.db ++ [("Rent", "Monthly Rent", 1000)] } := by
    rw [add_expense_pos s "Rent" "Monthly Rent" 1000 true (by norm_num)]
    rw [h1]
    rfl
  rw [hrec]
  have ht : totalExpenses
      { s with expenses := [("Rent", [("Monthly Rent", 1000)])],
               db := s.db ++ [("Rent", "Monthly Rent", 1000)] } = 1000 := by
    simp [totalExpenses, sumAmounts, itemsSum]
  have hlt : ({ s with
      expenses := [("Rent", [("Monthly Rent", 1000)])],
      db := s.db ++ [("Rent", "Monthly Rent", 1000)] } : FD).income <
      totalExpenses
        { s with expenses := [("Rent", [("Monthly Rent", 1000)])],
                 db := s.db ++ [("Rent", "Monthly Rent", 1000)] } := by
    rw [ht]
    show s.income < 1000
    rw [h2]
    norm_num
  obtain ⟨hsav, hdef⟩ := adjust_twice _ hlt
  refine ⟨?_, ?_⟩
  · rw [hdef, ht]
    show (1000 : ℚ) - s.income = 500
    rw [h2]
    norm_num
  · rw [hsav, ht]
    show max (s.savings - 2 * ((1000 : ℚ) - s.income)) 0 = max (S - 1000) 0
    rw [h2, h3]
    norm_num

/-- C1 witness: the amended statement at S = 1000 on the concrete ledger
`exS`. -/
theorem c1_witness :
    (adjust_savings_if_needed
        (add_expense exS "Rent" "Monthly Rent" 1000 true)).deficit = 500 ∧
    (adjust_savings_if_needed
        (add_expense exS "Rent" "Monthly Rent" 1000 true)).savings =
      max ((1000 : ℚ) - 1000) 0 :=
  c1_amended 1000 exS rfl rfl rfl

/-- C9: `adjustSavingsIfNeeded` is not idempotent: with a shortfall
`d = totalExpenses − income > 0` and positive savings, two consecutive
calls leave savings at `max(savings − 2·d, 0)` — each call subtracts the
full current shortfall again — while the deficit stays `d`. -/
theorem c9_not_idempotent (s : FD) (h : s.income < totalExpenses s)
    (_hs : 0 < s.savings) :
    (adjust_savings_if_needed (adjust_savings_if_needed s)).savings =
      max (s.savings - 2 * (totalExpenses s - s.income)) 0 ∧
    (adjust_savings_if_needed (adjust_savings_if_needed s)).deficit =
      totalExpenses s - s.income :=
  adjust_twice s h

/-- C9 witness: income 500, savings 700, expenses 1000: two adjustment
calls leave savings `max(700 − 2·500, 0) = 0` and deficit 500. -/
theorem c9_witness :
    (adjust_savings_if_needed (adjust_savings_if_needed c9S)).savings =
      max (c9S.savings - 2 * (totalExpenses c9S - c9S.income)) 0 ∧
    (adjust_savings_if_needed (adjust_savings_if_needed c9S)).deficit =
      totalExpenses c9S - c9S.income :=
  c9_not_idempotent c9S (of_decide_eq_true (by with_unfolding_all rfl))
    (of_decide_eq_true (by with_unfolding_all rfl))

/-- C8: if any line in expense-parsing position is malformed (wrong field
count for the `category, description, amount` format, or a non-numeric
amount), `loadFromSnapshot` aborts with the propagated parse error — the
line is never silently skipped. -/
theorem c8_malformed_aborts (s : FD) (lines : List String)
    (h : hasMalformed false lines = true) :
    read_data_from_file s (some lines) = none := by
  simp only [read_data_from_file]
  rw [readLines_malformed lines { s with db := [] } false h]

/-- C8 witness: a snapshot whose expense line has a non-numeric amount
makes the load abort. -/
theorem c8_witness :
    hasMalformed false ["Expenses:", "A, B, xx"] = true ∧
    read_data_from_file initFD (some ["Expenses:", "A, B, xx"]) = none :=
  ⟨rfl, c8_malformed_aborts initFD ["Expenses:", "A, B, xx"] rfl⟩

/-- C10: a successful `loadFromSnapshot` never clears the in-memory
expenses dict: every category's sequence afterwards is its old sequence
with the file's rows for that category appended, while the relational store
is rebuilt to exactly the file's rows (the old table contents are gone). -/
theorem c10_load_appends (s : FD) (lines : List String) (s' : FD)
    (h : read_data_from_file s (some lines) = some s') :
    (∀ c, getCat s'.expenses c =
        getCat s.expenses c ++ rowsFor c (fileRowsAux false lines)) ∧
    s'.db = fileRowsAux false lines := by
  simp only [read_data_from_file] at h
  cases hr : readLines { s with db := [] } false lines with
  | none =>
    rw [hr] at h
    exact Option.noConfusion h
  | some p =>
    obtain ⟨t, b⟩ := p
    rw [hr] at h
    simp only [Option.some.injEq] at h
    obtain ⟨hdb, hexp, _, _⟩ := readLines_ok lines { s with db := [] } false t b hr
    subst h
    constructor
    · intro c
      show getCat t.expenses c = _
      rw [hexp, getCat_foldl]
    · show t.db = _
      rw [hdb]
      rfl

/-- C10 witness: loading a snapshot with one `G` row onto a ledger already
holding a `G` entry appends it; the table holds only the file's row. -/
theorem c10_witness :
    (∀ c, getCat c10Res.expenses c =
        getCat c10S.expenses c ++
          rowsFor c (fileRowsAux false ["Expenses:", "G, n, 2"])) ∧
    c10Res.db = fileRowsAux false ["Expenses:", "G, n, 2"] :=
  c10_load_appends c10S ["Expenses:", "G, n, 2"] c10Res
    (of_decide_eq_true (by with_unfolding_all rfl))

/-- C4 counterexample: after loading a snapshot into a ledger whose
in-memory expenses are non-empty, the store's row set does not equal the
flattened expenses mapping: the pre-existing in-memory row survives the
load but is not in the rebuilt table. -/
theorem c4_counterexample :
    read_data_from_file c4S (some ["Expenses:", "B, y, 2"]) = some c4Res ∧
    ("A", "x", (1 : ℚ)) ∈ flattenExpenses c4Res.expenses ∧
    ("A", "x", (1 : ℚ)) ∉ c4Res.db :=
  of_decide_eq_true (by with_unfolding_all rfl)

/-- C4 (amended): a successful load rebuilds the relational store to
exactly the file's parsed expense rows, in order — one row per well-formed
expense line, with no rows left over from before the load; and the store's
row set equals the flattened expenses mapping whenever the in-memory
expenses were empty before the load (in general the mapping additionally
retains its pre-load entries). -/
theorem c4_amended (s : FD) (lines : List String) (s' : FD)
    (h : read_data_from_file s (some lines) = some s') :
    s'.db = fileRowsAux false lines ∧
    (s.expenses = [] →
      ∀ r, r ∈ flattenExpenses s'.expenses ↔ r ∈ s'.db) := by
  simp only [read_data_from_file] at h
  cases hr : readLines { s with db := [] } false lines with
  | none =>
    rw [hr] at h
    exact Option.noConfusion h
  | some p =>
    obtain ⟨t, b⟩ := p
    rw [hr] at h
    simp only [Option.some.injEq] at h
    obtain ⟨hdb, hexp, _, _⟩ := readLines_ok lines { s with db := [] } false t b hr
    subst h
    have hdb' : t.db = fileRowsAux false lines := by
      rw [hdb]
      rfl
    refine ⟨hdb', ?_⟩
    intro hemp r
    show r ∈ flattenExpenses t.expenses ↔ r ∈ t.db
    rw [hexp, hdb']
    have hexp0 : ({ s with db := ([] : List (String × String × ℚ)) } : FD).expenses
        = [] := hemp
    rw [hexp0, mem_flatten_foldl]
    simp [flattenExpenses]

/-- C4 witness: a fresh-construction load of one well-formed expense line
yields exactly that row, and store and flattened mapping agree. -/
theorem c4_witness :
    c4W.db = fileRowsAux false ["Expenses:", "A, x, 1"] ∧
    (initFD.expenses = [] →
      ∀ r, r ∈ flattenExpenses c4W.expenses ↔ r ∈ c4W.db) :=
  c4_amended initFD ["Expenses:", "A, x, 1"] c4W
    (of_decide_eq_true (by with_unfolding_all rfl))

/-- C3 counterexample: writing a snapshot of `rtS` (one expense entry) and
loading it does not reproduce the expenses mapping: the loader never clears
the in-memory dict, so the entry is appended to its surviving copy and
category `A` ends with the entry twice. -/
theorem c3_counterexample :
    (read_data_from_file rtS (some (save_data_to_file rtS))).map FD.expenses ≠
      some rtS.expenses :=
  of_decide_eq_true (by with_unfolding_all rfl)

/-- C3 (amended): for a ledger with distinct category keys whose serialized
header values parse back to themselves and whose serialized expense lines
are clean (not header-prefixed, non-blank, parsing back to their row), the
write-then-load round trip succeeds and reproduces income, savings and
savingsGoal exactly; the expenses mapping is not reproduced: each
category's sequence comes back as its old value followed by its loaded copy
(entries duplicated), and the table holds exactly the written rows. -/
theorem c3_amended (s : FD)
    (hnd : (s.expenses.map Prod.fst).Nodup)
    (hinc : headerVal ("Income: " ++ ratStr s.income) = some s.income)
    (hsav : headerVal ("Savings: " ++ ratStr s.savings) = some s.savings)
    (hgoal : headerVal ("SavingsGoal: " ++ ratStr s.savings_goal) =
      some s.savings_goal)
    (hrows : ∀ r ∈ flattenExpenses s.expenses, lineOkRow r) :
    ∃ s', read_data_from_file s (some (save_data_to_file s)) = some s' ∧
      s'.income = s.income ∧ s'.savings = s.savings ∧
      s'.savings_goal = s.savings_goal ∧
      s'.db = flattenExpenses s.expenses ∧
      ∀ c, getCat s'.expenses c = getCat s.expenses c ++ getCat s.expenses c := by
  have e : readLines { s with db := [] } false (save_data_to_file s) =
      some ({ s with
        db := flattenExpenses s.expenses,
        expenses := (flattenExpenses s.expenses).foldl expStep s.expenses }, true) := by
    show readLines { s with db := [] } false
        (("Income: " ++ ratStr s.income) :: ("Savings: " ++ ratStr s.savings) ::
          ("SavingsGoal: " ++ ratStr s.savings_goal) :: "Expenses:" ::
          (flattenExpenses s.expenses).map lineStrOf) = _
    rw [readLines, if_pos (sw_inc (ratStr s.income)), hinc]
    show readLines { s with db := [] } false
        (("Savings: " ++ ratStr s.savings) ::
          ("SavingsGoal: " ++ ratStr s.savings_goal) :: "Expenses:" ::
          (flattenExpenses s.expenses).map lineStrOf) = _
    rw [readLines, if_neg (by simp [sw_sav_not_inc]),
        if_pos (sw_sav (ratStr s.savings)), hsav]
    show readLines { s with db := [] } false
        (("SavingsGoal: " ++ ratStr s.savings_goal) :: "Expenses:" ::
          (flattenExpenses s.expenses).map lineStrOf) = _
    rw [readLines, if_neg (by simp [sw_goal_not_inc]),
        if_neg (by simp [sw_goal_not_sav]),
        if_pos (sw_goal (ratStr s.savings_goal)), hgoal]
    show readLines { s with db := [] } false
        ("Expenses:" :: (flattenExpenses s.expenses).map lineStrOf) = _
    rw [readLines, if_neg (by decide), if_neg (by decide), if_neg (by decide),
        if_pos (by decide)]
    rw [readLines_writerRows (flattenExpenses s.expenses) _ hrows]
    rfl
  refine ⟨{ s with
      db := flattenExpenses s.expenses,
      expenses := (flattenExpenses s.expenses).foldl expStep s.expenses,
      original_savings := s.savings }, ?_, rfl, rfl, rfl, rfl, ?_⟩
  · simp only [read_data_from_file]
    rw [e]
  · intro c
    show getCat ((flattenExpenses s.expenses).foldl expStep s.expenses) c = _
    rw [getCat_foldl, rowsFor_flatten_nodup c s.expenses hnd]

/-- C3 witness: the amended round trip at the concrete ledger `rtS`. -/
theorem c3_witness :
    ∃ s', read_data_from_file rtS (some (save_data_to_file rtS)) = some s' ∧
      s'.income = rtS.income ∧ s'.savings = rtS.savings ∧
      s'.savings_goal = rtS.savings_goal ∧
      s'.db = flattenExpenses rtS.expenses ∧
      ∀ c, getCat s'.expenses c = getCat rtS.expenses c ++ getCat rtS.expenses c :=
  c3_amended rtS (by decide)
    (of_decide_eq_true (by with_unfolding_all rfl))
    (of_decide_eq_true (by with_unfolding_all rfl))
    (of_decide_eq_true (by with_unfolding_all rfl))
    (of_decide_eq_true (by with_unfolding_all rfl))
